import Mathlib

/-
Verification of the auto-reconnecting WebSocket poller component
(src/demo/ui/components/websocket_poller.js).

The component is modelled as a small-step event system. A `PollerState`
records the JavaScript object's fields (`ws`, `triggerEvent`, `action`),
the set of transport handles ever created (`sockets`, indexed by creation
order, mirroring the browser WebSocket objects together with their
readyState), the pending reconnect timers armed by `setTimeout` in the
`onclose` handler (`timers`, a FIFO queue of absolute fire times in
milliseconds), the list of MesopEvents dispatched so far (`emitted`),
and whether the element is currently attached to the DOM (`attached`).

Events (`Ev`) are the callbacks the browser event loop can deliver:
`connectedCallback` / `disconnectedCallback` on attach and detach, the
transport-level open and close events of an individual socket, an
inbound frame on a socket, and the firing of a pending reconnect timer.
`JSON.parse` is a platform primitive; it is modelled by an abstract
`parse : String -> Option V` that succeeds exactly on well-formed input.
`window.location` at the moment a callback runs is modelled by an `Env`
carried on the events that create connections.
-/

/-- readyState of a browser WebSocket handle:
CONNECTING, OPEN, CLOSING, CLOSED. -/
inductive SockState where
  | connecting
  | opened
  | closing
  | closed
deriving DecidableEq, Repr

/-- One transport handle: the URL it was created with and its state. -/
structure Sock where
  url : String
  state : SockState
deriving DecidableEq, Repr

/-- The hosting page context (`window.location`) at one point in time. -/
structure Env where
  protocol : String
  host : String
deriving DecidableEq, Repr

/-- The state of one WebSocketPoller component instance plus the
event-loop bookkeeping (timers, dispatched events, DOM attachment). -/
structure PollerState (V : Type) where
  ws : Option Nat
  sockets : List Sock
  timers : List Nat
  emitted : List (String × V)
  triggerEvent : String
  action : Option V
  attached : Bool
deriving DecidableEq, Repr

/-- Callbacks the event loop can deliver to the component. -/
inductive Ev (V : Type) where
  | attach (env : Env)
  | detach
  | sockOpen (i : Nat)
  | sockClose (i : Nat)
  | message (i : Nat) (raw : String)
  | timerFire (env : Env)
deriving DecidableEq, Repr

/-- Source: `const wsProtocol = window.location.protocol === 'https:' ? 'wss:' : 'ws:';`
`const wsUrl = wsProtocol + '//' + window.location.host + '/__ws__';` -/
def wsUrl (env : Env) : String :=
  (if env.protocol = "https:" then "wss:" else "ws:") ++ "//" ++ env.host ++ "/__ws__"

/-- Source: `connectWebSocket()` — builds the URL from the current page
context and assigns `this.ws = new WebSocket(wsUrl)`, a fresh handle in
CONNECTING state. The `onmessage` / `onclose` closures it installs are
identical for every handle and are represented once, in `step`. -/
def connectWebSocket (env : Env) (s : PollerState V) : PollerState V :=
  { s with
    ws := some s.sockets.length
    sockets := s.sockets ++ [{ url := wsUrl env, state := SockState.connecting }] }

/-- Source: `connectedCallback()` — runs on DOM attach, calls
`this.connectWebSocket()`. -/
def connectedCallback (env : Env) (s : PollerState V) : PollerState V :=
  connectWebSocket env { s with attached := true }

/-- Effect of `ws.close()` on a handle: CONNECTING/OPEN go to CLOSING
(the close event is delivered later, asynchronously); on CLOSING/CLOSED
handles the call is a no-op. -/
def wsClose (k : Sock) : Sock :=
  match k.state with
  | SockState.connecting => { k with state := SockState.closing }
  | SockState.opened => { k with state := SockState.closing }
  | _ => k

/-- Replace the socket at index `i` by `f` applied to it
(out-of-range indices leave the list unchanged). -/
def modifySock (f : Sock → Sock) : List Sock → Nat → List Sock
  | [], _ => []
  | k :: r, 0 => f k :: r
  | k :: r, i + 1 => k :: modifySock f r i

/-- Source: `disconnectedCallback()` — runs on DOM detach:
`if (this.ws) { this.ws.close(); }`. Nothing else: no flag is set and
no pending timer is cancelled. -/
def disconnectedCallback (s : PollerState V) : PollerState V :=
  match s.ws with
  | none => { s with attached := false }
  | some i => { s with attached := false, sockets := modifySock wsClose s.sockets i }

/-- Source: the `onmessage` closure —
`const data = JSON.parse(event.data);` followed by
`this.dispatchEvent(new MesopEvent(this.triggerEvent, { action: data }));`.
`JSON.parse` throws on malformed input; there is no try/catch around it,
so the exception escapes the callback (`Except.error`). On success one
MesopEvent tagged with the current `triggerEvent` carrying the decoded
payload as its `action` field is dispatched. -/
def onmessage (parse : String → Option V) (s : PollerState V) (raw : String) :
    Except String (PollerState V) :=
  match parse raw with
  | none => Except.error raw
  | some v => Except.ok { s with emitted := (s.triggerEvent, v) :: s.emitted }

/-- One event-loop step. The `sockClose` case is the source's `onclose`
closure: `setTimeout(() => this.connectWebSocket(), 1000)` — it arms a
reconnect timer for 1000 ms later, unconditionally (it is installed on
every handle ever created and never unregistered). A `timerFire`
delivers the oldest pending timer's callback, which re-runs
`connectWebSocket` with the page context of that moment. An exception
escaping a callback (malformed frame) is caught by the event loop:
the state is left unchanged and processing continues. -/
def step (parse : String → Option V) (t : Nat) (s : PollerState V) : Ev V → PollerState V
  | Ev.attach env => connectedCallback env s
  | Ev.detach => disconnectedCallback s
  | Ev.sockOpen i =>
      { s with sockets := modifySock (fun k => { k with state := SockState.opened }) s.sockets i }
  | Ev.sockClose i =>
      { s with
        sockets := modifySock (fun k => { k with state := SockState.closed }) s.sockets i
        timers := s.timers ++ [t + 1000] }
  | Ev.message _ raw =>
      match onmessage parse s raw with
      | Except.ok s1 => s1
      | Except.error _ => s
  | Ev.timerFire env => connectWebSocket env { s with timers := s.timers.tail }

/-- Refinement of `step` that surfaces the exception a callback can
raise. The only callback in the source that can throw is `onmessage`
(via `JSON.parse`); every other branch returns normally. -/
def stepE (parse : String → Option V) (t : Nat) (s : PollerState V) :
    Ev V → Except String (PollerState V)
  | Ev.message i raw =>
      match onmessage parse s raw with
      | Except.ok s1 => Except.ok s1
      | Except.error e =>
          have _ : Nat := i
          Except.error e
  | e => Except.ok (step parse t s e)

/-- Which events the browser event loop can actually deliver in a given
state at time `now`: lifecycle callbacks respect DOM attachment, socket
events respect the handle's readyState (a close event fires once, when a
non-CLOSED handle goes down for any reason: network drop, server close,
connection failure, or completion of `close()`); frames arrive only on
OPEN handles; a timer fires only once armed and not before its scheduled
time, oldest first. -/
def evValidb (s : PollerState V) (now : Nat) : Ev V → Bool
  | Ev.attach _ => !s.attached
  | Ev.detach => s.attached
  | Ev.sockOpen i =>
      match s.sockets.get? i with
      | some k => decide (k.state = SockState.connecting)
      | none => false
  | Ev.sockClose i =>
      match s.sockets.get? i with
      | some k => !decide (k.state = SockState.closed)
      | none => false
  | Ev.message i _ =>
      match s.sockets.get? i with
      | some k => decide (k.state = SockState.opened)
      | none => false
  | Ev.timerFire _ =>
      match s.timers.head? with
      | some ft => decide (ft ≤ now)
      | none => false

/-- Run a timed event list through `step`. -/
def runFrom (parse : String → Option V) : PollerState V → List (Nat × Ev V) → PollerState V
  | s, [] => s
  | s, (t, e) :: r => runFrom parse (step parse t s e) r

/-- A timed event list is well formed from state `s` after time `t0`:
times are nondecreasing and every event is deliverable in the state it
meets. -/
def wfFrom (parse : String → Option V) : PollerState V → Nat → List (Nat × Ev V) → Bool
  | _, _, [] => true
  | s, t0, (t, e) :: r =>
      decide (t0 ≤ t) && evValidb s t e && wfFrom parse (step parse t s e) t r

/-- Source: the constructor — `this.ws = null`; the element starts
detached, with no handles, timers or dispatched events. `triggerEvent`
is the property value supplied by the host. -/
def initState (trig : String) : PollerState V :=
  { ws := none
    sockets := []
    timers := []
    emitted := []
    triggerEvent := trig
    action := none
    attached := false }

/-- Number of active (non-CLOSED) transport handles. -/
def countActive : List Sock → Nat
  | [] => 0
  | k :: r => (if k.state = SockState.closed then 0 else 1) + countActive r

/-- Pending timers plus active handles: the quantity conserved by every
deliverable non-attach event. -/
def measureOf (s : PollerState V) : Nat :=
  s.timers.length + countActive s.sockets

def isAttach : Ev V → Bool
  | Ev.attach _ => true
  | _ => false

def countAttach : List (Nat × Ev V) → Nat
  | [] => 0
  | (_, e) :: r => (if isAttach e then 1 else 0) + countAttach r

/-- `countActive ≤ 1` holds at every point along the trace. -/
def alwaysActiveLE1 (parse : String → Option V) :
    PollerState V → List (Nat × Ev V) → Bool
  | s, [] => decide (countActive s.sockets ≤ 1)
  | s, (t, e) :: r =>
      decide (countActive s.sockets ≤ 1) && alwaysActiveLE1 parse (step parse t s e) r

/-- A fixed insecure page context for concrete traces. -/
def env0 : Env := { protocol := "http:", host := "localhost" }

/-- A parse function rejecting every frame (no frames are delivered in
the traces that use it). -/
def parse0 : String → Option Nat := fun _ => none

/-- A parse function accepting exactly the frame "ok", decoding it to 1. -/
def parseW : String → Option Nat := fun s => if s = "ok" then some 1 else none

theorem countActive_append (l m : List Sock) :
    countActive (l ++ m) = countActive l + countActive m := by
  induction l with
  | nil => simp [countActive]
  | cons k r ih => simp [countActive, ih]; omega

theorem length_modifySock (f : Sock → Sock) (l : List Sock) (i : Nat) :
    (modifySock f l i).length = l.length := by
  induction l generalizing i with
  | nil => rfl
  | cons k r ih =>
      cases i with
      | zero => rfl
      | succ j => simp [modifySock, ih]

theorem countActive_modifySock_preserve (f : Sock → Sock)
    (hf : ∀ k, ((f k).state = SockState.closed ↔ k.state = SockState.closed))
    (l : List Sock) (i : Nat) :
    countActive (modifySock f l i) = countActive l := by
  induction l generalizing i with
  | nil => rfl
  | cons k r ih =>
      cases i with
      | zero =>
          simp only [modifySock, countActive]
          congr 1
          by_cases h : k.state = SockState.closed
          · rw [if_pos h, if_pos ((hf k).2 h)]
          · rw [if_neg h, if_neg (fun hc => h ((hf k).1 hc))]
      | succ j => simp [modifySock, countActive, ih]

theorem countActive_modifySock_get (f : Sock → Sock) (l : List Sock) (i : Nat)
    (k : Sock) (h : l.get? i = some k) :
    countActive (modifySock f l i) + (if k.state = SockState.closed then 0 else 1)
      = countActive l + (if (f k).state = SockState.closed then 0 else 1) := by
  induction l generalizing i with
  | nil => simp [List.get?] at h
  | cons a r ih =>
      cases i with
      | zero =>
          simp only [List.get?] at h
          cases h
          simp only [modifySock, countActive]
          omega
      | succ j =>
          simp only [List.get?] at h
          have := ih j h
          simp only [modifySock, countActive]
          omega

theorem wsClose_closed_iff (k : Sock) :
    (wsClose k).state = SockState.closed ↔ k.state = SockState.closed := by
  cases k with
  | mk u st => cases st <;> simp [wsClose]

/-- Every event the event loop can deliver, other than an attach,
conserves `timers + active handles`; an attach adds one. -/
theorem measureOf_step (parse : String → Option V) (t : Nat) (s : PollerState V)
    (e : Ev V) (hv : evValidb s t e = true) :
    measureOf (step parse t s e) = measureOf s + (if isAttach e then 1 else 0) := by
  cases e with
  | attach env =>
      simp [step, connectedCallback, connectWebSocket, measureOf, isAttach,
        countActive_append, countActive]
      omega
  | detach =>
      simp only [step, disconnectedCallback, isAttach, if_neg Bool.false_ne_true]
      cases hws : s.ws with
      | none => simp [measureOf]
      | some i =>
          simp [measureOf, countActive_modifySock_preserve wsClose wsClose_closed_iff]
  | sockOpen i =>
      simp only [evValidb] at hv
      cases hg : s.sockets.get? i with
      | none => rw [hg] at hv; exact absurd hv (by simp)
      | some k =>
          rw [hg] at hv
          have hk : k.state = SockState.connecting := by
            simpa using hv
          have := countActive_modifySock_get
            (fun k => { k with state := SockState.opened }) s.sockets i k hg
          simp only [step, measureOf, isAttach, if_neg Bool.false_ne_true]
          rw [hk] at this
          simp at this
          omega
  | sockClose i =>
      simp only [evValidb] at hv
      cases hg : s.sockets.get? i with
      | none => rw [hg] at hv; exact absurd hv (by simp)
      | some k =>
          rw [hg] at hv
          have hk : ¬ k.state = SockState.closed := by
            simpa using hv
          have := countActive_modifySock_get
            (fun k => { k with state := SockState.closed }) s.sockets i k hg
          simp only [if_neg hk] at this
          simp only [step, measureOf, isAttach, if_neg Bool.false_ne_true,
            List.length_append, List.length_cons, List.length_nil]
          simp at this
          omega
  | message i raw =>
      simp only [step, onmessage]
      cases parse raw with
      | none => simp [measureOf, isAttach]
      | some v => simp [measureOf, isAttach]
  | timerFire env =>
      simp only [evValidb] at hv
      cases hh : s.timers.head? with
      | none => rw [hh] at hv; exact absurd hv (by simp)
      | some ft =>
          have hne : s.timers ≠ [] := by
            intro hnil
            rw [hnil] at hh
            simp at hh
          simp only [step, connectWebSocket, measureOf, isAttach,
            if_neg Bool.false_ne_true, countActive_append, countActive]
          have : s.timers.tail.length = s.timers.length - 1 := by
            simp [List.length_tail]
          rw [this]
          have hpos : 0 < s.timers.length := List.length_pos.2 hne
          simp [countActive]
          omega

theorem countActive_le_measureOf (s : PollerState V) :
    countActive s.sockets ≤ measureOf s := by
  simp [measureOf]

/-- Along any deliverable trace, `measure + remaining attaches` never
grows; when it starts at most 1, every state passed through has at most
one active transport handle. -/
theorem alwaysActiveLE1_of (parse : String → Option V) :
    ∀ (tr : List (Nat × Ev V)) (s : PollerState V) (t0 : Nat),
      measureOf s + countAttach tr ≤ 1 → wfFrom parse s t0 tr = true →
      alwaysActiveLE1 parse s tr = true := by
  intro tr
  induction tr with
  | nil =>
      intro s t0 hm _
      have h1 : countActive s.sockets ≤ 1 := by
        have := countActive_le_measureOf s
        simp [countAttach] at hm
        omega
      simpa [alwaysActiveLE1] using h1
  | cons te r ih =>
      intro s t0 hm hwf
      cases te with
      | mk t e =>
          simp only [wfFrom, Bool.and_eq_true, decide_eq_true_eq] at hwf
          obtain ⟨⟨_, hv⟩, hwfr⟩ := hwf
          have hstep := measureOf_step parse t s e hv
          have hrec : measureOf (step parse t s e) + countAttach r ≤ 1 := by
            simp only [countAttach] at hm
            by_cases ha : isAttach e
            · rw [hstep, if_pos ha]
              rw [if_pos ha] at hm
              omega
            · rw [hstep, if_neg ha]
              rw [if_neg ha] at hm
              omega
          have h1 : countActive s.sockets ≤ 1 := by
            have := countActive_le_measureOf s
            omega
          simp only [alwaysActiveLE1, Bool.and_eq_true, decide_eq_true_eq]
          exact ⟨h1, ih (step parse t s e) t hrec hwfr⟩

/-- The handle `connectWebSocket` creates in the retry cycle. -/
def connS : Sock := { url := wsUrl env0, state := SockState.connecting }

/-- The same handle once its close event has fired. -/
def closedS : Sock := { url := wsUrl env0, state := SockState.closed }

/-- The component's state after the initial connection and `k` complete
drop-and-reconnect cycles: `k` dead handles, one fresh CONNECTING handle,
no timer pending. -/
def cycleState (trig : String) (k : Nat) : PollerState Nat :=
  { ws := some k
    sockets := List.replicate k closedS ++ [connS]
    timers := []
    emitted := []
    triggerEvent := trig
    action := none
    attached := true }

/-- `n` consecutive drop-and-reconnect cycles starting at socket `i`,
the drop at time `b` and the timer firing exactly 1000 ms later. -/
def retryTail : Nat → Nat → Nat → List (Nat × Ev Nat)
  | 0, _, _ => []
  | n + 1, i, b =>
      (b, Ev.sockClose i) :: (b + 1000, Ev.timerFire env0) :: retryTail n (i + 1) (b + 2000)

/-- Mount at time 0, then `n` drop-and-reconnect cycles. -/
def retryTrace (n : Nat) : List (Nat × Ev Nat) :=
  (0, Ev.attach env0) :: retryTail n 0 1

theorem modifySock_replicate_concat (c x : Sock) (f : Sock → Sock) (k : Nat) :
    modifySock f (List.replicate k c ++ [x]) k = List.replicate k c ++ [f x] := by
  induction k with
  | zero => rfl
  | succ j ih => simpa [List.replicate_succ, modifySock] using ih

theorem get?_replicate_concat (c x : Sock) (k : Nat) :
    (List.replicate k c ++ [x]).get? k = some x := by
  induction k with
  | zero => rfl
  | succ j ih => simp [List.replicate_succ, List.get?, ih]

/-- One drop-and-reconnect cycle maps `cycleState trig k` to
`cycleState trig (k+1)`, and the whole tail of `n` cycles is deliverable
and ends with `k + n` dead handles plus one fresh one. -/
theorem retryTail_spec (trig : String) :
    ∀ (n k b t0 : Nat), t0 ≤ b →
      (wfFrom parse0 (cycleState trig k) t0 (retryTail n k b) = true
        ∧ runFrom parse0 (cycleState trig k) (retryTail n k b) = cycleState trig (k + n)) := by
  intro n
  induction n with
  | zero =>
      intro k b t0 _
      exact ⟨rfl, rfl⟩
  | succ m ih =>
      intro k b t0 ht
      have hget : (cycleState trig k).sockets.get? k = some connS := by
        simp only [cycleState]
        exact get?_replicate_concat closedS connS k
      have hclose :
          step parse0 b (cycleState trig k) (Ev.sockClose k)
            = { cycleState trig k with
                sockets := List.replicate (k + 1) closedS
                timers := [b + 1000] } := by
        simp only [step, cycleState]
        have hmod := modifySock_replicate_concat closedS connS
          (fun k => { k with state := SockState.closed }) k
        have hcc : { connS with state := SockState.closed } = closedS := rfl
        rw [hmod, hcc, ← List.replicate_succ']
        rfl
      have hfire :
          step parse0 (b + 1000)
              ({ cycleState trig k with
                 sockets := List.replicate (k + 1) closedS
                 timers := [b + 1000] }) (Ev.timerFire env0)
            = cycleState trig (k + 1) := by
        simp only [step, connectWebSocket, cycleState]
        simp [connS, List.replicate_succ', closedS]
      have hv1 : evValidb (cycleState trig k) b (Ev.sockClose k) = true := by
        simp only [evValidb]
        rw [hget]
        simp [connS]
      have hv2 : evValidb
          ({ cycleState trig k with
             sockets := List.replicate (k + 1) closedS
             timers := [b + 1000] }) (b + 1000) (Ev.timerFire env0) = true := by
        simp [evValidb]
      have hrest := ih (k + 1) (b + 2000) (b + 1000) (by omega)
      constructor
      · simp only [retryTail, wfFrom, hclose, hfire, Bool.and_eq_true, decide_eq_true_eq]
        refine ⟨⟨ht, hv1⟩, ⟨⟨by omega, hv2⟩, ?_⟩⟩
        exact hrest.1
      · simp only [retryTail, runFrom, hclose, hfire]
        have h2 := hrest.2
        have harg : k + 1 + m = k + (m + 1) := by omega
        rw [h2, harg]

/-- Mount, network drop at t=10 (arming the reconnect timer for t=1010),
unmount at t=20, pending timer fires at t=1010. -/
def c1trace : List (Nat × Ev Nat) :=
  [(0, Ev.attach env0), (10, Ev.sockClose 0), (20, Ev.detach), (1010, Ev.timerFire env0)]

/-- C1: after teardown (disconnectedCallback) returns, no further
connection attempts occur and any pending reconnection timer is
cancelled or rendered inert. REFUTED by the code: in the deliverable
trace `c1trace`, after the first three events (mount, drop,
disconnectedCallback) exactly one connection attempt has been made yet
the reconnect timer armed by the drop is still pending, and when it
fires a second connection attempt is made — after teardown returned. -/
theorem C1_reconnect_after_teardown :
    wfFrom parse0 (initState "e") 0 c1trace = true
      ∧ (runFrom parse0 (initState "e") (c1trace.take 3)).sockets.length = 1
      ∧ (runFrom parse0 (initState "e") (c1trace.take 3)).timers = [1010]
      ∧ (runFrom parse0 (initState "e") c1trace).sockets.length = 2 :=
  ⟨by decide, by decide, by decide, by decide⟩

/-- C2 (counterexample to the claim as stated): the decode failure is
not dropped or logged by the component — there is no try/catch around
`JSON.parse`, so the exception escapes the `onmessage` callback:
on the non-JSON frame "not-json" the handler results in an error
instead of returning normally. -/
theorem C2_decode_error_escapes :
    parseW "not-json" = none
      ∧ (onmessage parseW (initState "e") "not-json").isOk = false :=
  ⟨by decide, rfl⟩

/-- C2 (amended): a frame that fails to parse leaves the component state
completely unchanged — the handler is not invoked, nothing is emitted and
no handle is closed — and a subsequent well-formed frame is still
delivered as one event; however the decode failure escapes the
`onmessage` callback as an exception (`stepE` errors) rather than being
caught and logged inside the component. -/
theorem C2_malformed_frame_isolated (V : Type) (parse : String → Option V)
    (s : PollerState V) (t t2 i i2 : Nat) (raw raw2 : String) (v : V)
    (hbad : parse raw = none) (hgood : parse raw2 = some v) :
    step parse t s (Ev.message i raw) = s
      ∧ (stepE parse t s (Ev.message i raw)).isOk = false
      ∧ (step parse t2 (step parse t s (Ev.message i raw)) (Ev.message i2 raw2)).emitted
          = (s.triggerEvent, v) :: s.emitted := by
  have h1 : step parse t s (Ev.message i raw) = s := by
    simp [step, onmessage, hbad]
  refine ⟨h1, ?_, ?_⟩
  · simp [stepE, onmessage, hbad, Except.isOk, Except.toBool]
  · rw [h1]
    simp [step, onmessage, hgood]

/-- Witness for C2 (amended) at concrete inputs: "bad" is rejected by
`parseW`, "ok" decodes to 1. -/
theorem C2_malformed_frame_isolated_witness :
    parseW "bad" = none
      ∧ parseW "ok" = some 1
      ∧ (step parseW 5 (initState "e" : PollerState Nat) (Ev.message 0 "bad")
           = initState "e"
         ∧ (stepE parseW 5 (initState "e" : PollerState Nat) (Ev.message 0 "bad")).isOk = false
         ∧ (step parseW 6 (step parseW 5 (initState "e" : PollerState Nat) (Ev.message 0 "bad"))
              (Ev.message 0 "ok")).emitted
             = ("e", 1) :: (initState "e" : PollerState Nat).emitted) :=
  ⟨by decide, by decide,
    C2_malformed_frame_isolated Nat parseW (initState "e") 5 6 0 0 "bad" "ok" 1
      (by decide) (by decide)⟩

/-- Mount, drop at t=5 (timer armed for t=1005), unmount at t=10
(`ws.close()` is a no-op, the handle is already closed; the timer is not
cancelled), re-mount at t=15 (second handle), timer fires at t=1005
(third handle; the second is overwritten while still CONNECTING). -/
def c3trace : List (Nat × Ev Nat) :=
  [(0, Ev.attach env0), (5, Ev.sockClose 0), (10, Ev.detach), (15, Ev.attach env0),
   (1005, Ev.timerFire env0)]

/-- C3 (counterexample to the claim as stated): a deliverable sequence of
mount / network-drop / unmount / re-mount events after which the
component holds two active (non-CLOSED) transport handles at once — the
reconnect timer armed before the unmount is never cancelled, and when it
fires it opens a new connection while the handle created by the re-mount
is still live. -/
theorem C3_two_active_handles :
    wfFrom parse0 (initState "e") 0 c3trace = true
      ∧ countActive (runFrom parse0 (initState "e") c3trace).sockets = 2 :=
  ⟨by decide, by decide⟩

/-- C3 (amended): for every deliverable event sequence containing at most
one mount, the component holds at most one active (non-CLOSED) transport
handle at every point; a new connection attempt is only issued on the
first mount or by a reconnect timer, which can only have been armed by
the close of the previous handle. -/
theorem C3_single_mount_at_most_one_active (V : Type) (parse : String → Option V)
    (trig : String) (tr : List (Nat × Ev V))
    (h1 : countAttach tr ≤ 1) (h2 : wfFrom parse (initState trig) 0 tr = true) :
    alwaysActiveLE1 parse (initState trig) tr = true := by
  refine alwaysActiveLE1_of parse tr (initState trig) 0 ?_ h2
  simp only [measureOf, initState, countActive, List.length_nil, Nat.add_zero, Nat.zero_add]
  exact h1

/-- Mount, one drop-and-reconnect cycle: a trace with a single mount. -/
def c3wit : List (Nat × Ev Nat) :=
  [(0, Ev.attach env0), (5, Ev.sockClose 0), (1005, Ev.timerFire env0)]

/-- Witness for C3 (amended) at a concrete single-mount trace. -/
theorem C3_single_mount_at_most_one_active_witness :
    countAttach c3wit ≤ 1
      ∧ wfFrom parse0 (initState "e") 0 c3wit = true
      ∧ alwaysActiveLE1 parse0 (initState "e") c3wit = true :=
  ⟨by decide, by decide,
    C3_single_mount_at_most_one_active Nat parse0 "e" c3wit (by decide) (by decide)⟩

/-- C4: every close event at time T (the `onclose` callback) arms the
next connection attempt for exactly T + 1000 ms — the same constant on
every retry, with no backoff — and a reconnect timer can only fire (and
thus re-run `connectWebSocket`) at a time no earlier than the instant it
was armed for. -/
theorem C4_reconnect_timing :
    (∀ (V : Type) (parse : String → Option V) (s : PollerState V) (t i : Nat),
        (step parse t s (Ev.sockClose i)).timers = s.timers ++ [t + 1000])
      ∧ (∀ (V : Type) (parse : String → Option V) (s : PollerState V) (t : Nat) (env : Env),
          evValidb s t (Ev.timerFire env) = true →
            ∃ ft, s.timers.head? = some ft ∧ ft ≤ t) := by
  constructor
  · intro V parse s t i
    rfl
  · intro V parse s t env hv
    simp only [evValidb] at hv
    cases hh : s.timers.head? with
    | none => rw [hh] at hv; exact absurd hv (by simp)
    | some ft =>
        rw [hh] at hv
        exact ⟨ft, rfl, by simpa using hv⟩

/-- A state with one pending reconnect timer armed for t=1005. -/
def c4state : PollerState Nat :=
  { initState "e" with timers := [1005] }

/-- Witness for C4 at concrete inputs: a close at t=7 arms a timer for
t=1007, and the pending timer for t=1005 may fire at t=2000. -/
theorem C4_reconnect_timing_witness :
    (step parse0 7 c4state (Ev.sockClose 0)).timers = [1005] ++ [7 + 1000]
      ∧ evValidb c4state 2000 (Ev.timerFire env0) = true
      ∧ ∃ ft, c4state.timers.head? = some ft ∧ ft ≤ 2000 :=
  ⟨C4_reconnect_timing.1 Nat parse0 c4state 7 0, by decide,
    C4_reconnect_timing.2 Nat parse0 c4state 2000 env0 (by decide)⟩

/-- C5: as long as the component exists, every close event arms another
reconnect timer — for every state, with no retry counter or circuit
breaker anywhere in the state — every timer that fires issues another
connection attempt, and for every n the trace with a mount followed by
n drop-and-reconnect cycles is deliverable and produces exactly n + 1
connection attempts: an unreachable endpoint is retried forever at the
fixed interval. -/
theorem C5_retry_forever :
    (∀ (V : Type) (parse : String → Option V) (s : PollerState V) (t i : Nat),
        (step parse t s (Ev.sockClose i)).timers.length = s.timers.length + 1)
      ∧ (∀ (V : Type) (parse : String → Option V) (s : PollerState V) (t : Nat) (env : Env),
          (step parse t s (Ev.timerFire env)).sockets.length = s.sockets.length + 1)
      ∧ (∀ n : Nat,
          wfFrom parse0 (initState "e") 0 (retryTrace n) = true
            ∧ (runFrom parse0 (initState "e") (retryTrace n)).sockets.length = n + 1) := by
  refine ⟨?_, ?_, ?_⟩
  · intro V parse s t i
    simp [step]
  · intro V parse s t env
    simp [step, connectWebSocket]
  · intro n
    have hstep0 : step parse0 0 (initState "e") (Ev.attach env0) = cycleState "e" 0 := rfl
    have hspec := retryTail_spec "e" n 0 1 0 (by omega)
    constructor
    · simp only [retryTrace, wfFrom, hstep0, Bool.and_eq_true, decide_eq_true_eq]
      exact ⟨⟨Nat.le_refl 0, rfl⟩, hspec.1⟩
    · simp only [retryTrace, runFrom, hstep0]
      rw [hspec.2]
      simp [cycleState]

/-- C6: every connection attempt — on mount and on every reconnect —
derives its endpoint afresh from the page context current at that
moment: the handle it creates has URL `wss://<host>/__ws__` when the
page scheme is https, and `ws://<host>/__ws__` otherwise. -/
theorem C6_endpoint_derivation :
    (∀ (V : Type) (parse : String → Option V) (s : PollerState V) (t : Nat) (env : Env),
        (step parse t s (Ev.attach env)).sockets.getLast?
          = some { url := wsUrl env, state := SockState.connecting })
      ∧ (∀ (V : Type) (parse : String → Option V) (s : PollerState V) (t : Nat) (env : Env),
          (step parse t s (Ev.timerFire env)).sockets.getLast?
            = some { url := wsUrl env, state := SockState.connecting })
      ∧ (∀ env : Env, env.protocol = "https:" →
          wsUrl env = "wss://" ++ env.host ++ "/__ws__")
      ∧ (∀ env : Env, env.protocol ≠ "https:" →
          wsUrl env = "ws://" ++ env.host ++ "/__ws__") := by
  have hsec : ("wss:" : String) ++ "//" = "wss://" := by decide
  have hins : ("ws:" : String) ++ "//" = "ws://" := by decide
  refine ⟨?_, ?_, ?_, ?_⟩
  · intro V parse s t env
    simp [step, connectedCallback, connectWebSocket]
  · intro V parse s t env
    simp [step, connectWebSocket]
  · intro env h
    rw [wsUrl, if_pos h, hsec]
  · intro env h
    rw [wsUrl, if_neg h, hins]

/-- Witness for C6 at concrete inputs: an attach on an https page and a
timer firing on an http page, plus both scheme derivations. -/
theorem C6_endpoint_derivation_witness :
    (step parse0 0 (initState "e" : PollerState Nat)
        (Ev.attach { protocol := "https:", host := "h" })).sockets.getLast?
      = some { url := wsUrl { protocol := "https:", host := "h" },
               state := SockState.connecting }
      ∧ (step parse0 0 (initState "e" : PollerState Nat)
          (Ev.timerFire env0)).sockets.getLast?
        = some { url := wsUrl env0, state := SockState.connecting }
      ∧ wsUrl { protocol := "https:", host := "h" } = "wss://" ++ "h" ++ "/__ws__"
      ∧ wsUrl env0 = "ws://" ++ "localhost" ++ "/__ws__" :=
  ⟨C6_endpoint_derivation.1 Nat parse0 (initState "e") 0 { protocol := "https:", host := "h" },
    C6_endpoint_derivation.2.1 Nat parse0 (initState "e") 0 env0,
    C6_endpoint_derivation.2.2.1 { protocol := "https:", host := "h" } (by decide),
    C6_endpoint_derivation.2.2.2 env0 (by decide)⟩

/-- C7: every frame that parses successfully produces exactly one
dispatched MesopEvent, tagged with the current caller-supplied
`triggerEvent` name and carrying the decoded payload as the `action`
field of its detail; nothing else about the state changes. -/
theorem C7_one_event_per_frame (V : Type) (parse : String → Option V)
    (s : PollerState V) (t i : Nat) (raw : String) (v : V)
    (h : parse raw = some v) :
    (step parse t s (Ev.message i raw)).emitted = (s.triggerEvent, v) :: s.emitted
      ∧ (step parse t s (Ev.message i raw)).sockets = s.sockets
      ∧ (step parse t s (Ev.message i raw)).timers = s.timers
      ∧ (step parse t s (Ev.message i raw)).ws = s.ws := by
  simp [step, onmessage, h]

/-- Witness for C7: the frame "ok" decodes to 1 and is delivered as one
event tagged "e". -/
theorem C7_one_event_per_frame_witness :
    parseW "ok" = some 1
      ∧ ((step parseW 3 (initState "e" : PollerState Nat) (Ev.message 0 "ok")).emitted
           = ("e", 1) :: (initState "e" : PollerState Nat).emitted
         ∧ (step parseW 3 (initState "e" : PollerState Nat) (Ev.message 0 "ok")).sockets
             = (initState "e" : PollerState Nat).sockets
         ∧ (step parseW 3 (initState "e" : PollerState Nat) (Ev.message 0 "ok")).timers
             = (initState "e" : PollerState Nat).timers
         ∧ (step parseW 3 (initState "e" : PollerState Nat) (Ev.message 0 "ok")).ws
             = (initState "e" : PollerState Nat).ws) :=
  ⟨by decide, C7_one_event_per_frame Nat parseW (initState "e") 3 0 "ok" 1 (by decide)⟩

/-- C8: the two entry points into `connectWebSocket` — the mount callback
and a firing reconnect timer — return normally for every state (the only
callback in the source that can throw is `onmessage`); a connection that
fails before opening surfaces as a close event, which is handled by the
one close path: it arms the usual reconnect timer. -/
theorem C8_open_no_sync_error :
    ∀ (V : Type) (parse : String → Option V) (s : PollerState V) (t : Nat)
      (env : Env) (i : Nat),
      (stepE parse t s (Ev.attach env)).isOk = true
        ∧ (stepE parse t s (Ev.timerFire env)).isOk = true
        ∧ stepE parse t s (Ev.sockClose i) = Except.ok (step parse t s (Ev.sockClose i))
        ∧ (step parse t s (Ev.sockClose i)).timers = s.timers ++ [t + 1000] := by
  intro V parse s t env i
  exact ⟨rfl, rfl, rfl, rfl⟩

/-- C9: calling `disconnectedCallback` before any connection attempt
(`this.ws` still null from the constructor) performs no transport
operation — the state is unchanged apart from the DOM detachment — and
raises no error. -/
theorem C9_detach_before_connect (V : Type) (parse : String → Option V)
    (s : PollerState V) (t : Nat) (h : s.ws = none) :
    step parse t s Ev.detach = { s with attached := false }
      ∧ (stepE parse t s Ev.detach).isOk = true := by
  constructor
  · simp [step, disconnectedCallback, h]
  · rfl

/-- Witness for C9: detaching the freshly constructed component. -/
theorem C9_detach_before_connect_witness :
    (initState "e" : PollerState Nat).ws = none
      ∧ (step parse0 0 (initState "e") Ev.detach
           = { (initState "e" : PollerState Nat) with attached := false }
         ∧ (stepE parse0 0 (initState "e" : PollerState Nat) Ev.detach).isOk = true) :=
  ⟨rfl, C9_detach_before_connect Nat parse0 (initState "e") 0 rfl⟩

/-- C10: no callback of the component ever writes the caller-supplied
`triggerEvent` property or the `action` property: every event —
connection attempt, open, message receipt, close, timer, lifecycle —
leaves both unchanged, and `connectWebSocket` itself changes nothing
besides `ws` and the handle it creates. -/
theorem C10_props_never_modified (V : Type) (parse : String → Option V)
    (s : PollerState V) (t : Nat) (e : Ev V) (env : Env) :
    (step parse t s e).triggerEvent = s.triggerEvent
      ∧ (step parse t s e).action = s.action
      ∧ (connectWebSocket env s).triggerEvent = s.triggerEvent
      ∧ (connectWebSocket env s).action = s.action
      ∧ (connectWebSocket env s).timers = s.timers
      ∧ (connectWebSocket env s).emitted = s.emitted := by
  refine ⟨?_, ?_, rfl, rfl, rfl, rfl⟩ <;>
  cases e with
  | attach env2 => rfl
  | detach =>
      cases hws : s.ws with
      | none => simp [step, disconnectedCallback, hws]
      | some i => simp [step, disconnectedCallback, hws]
  | sockOpen i => rfl
  | sockClose i => rfl
  | message i raw =>
      simp only [step, onmessage]
      cases parse raw with
      | none => rfl
      | some v => rfl
  | timerFire env2 => rfl
